import Mathlib

/-!
Verification development for the Reddit stock-mention tracker.

The Python sources (`utils.py`, `reddit_stocks.py`, `validator.py`) are
shallowly embedded below: JSON values become the inductive `JVal`, Python
exceptions become the `PyErr` error type threaded through `Except`, and the
stateful scheduler is modelled as pure functions of the fetched responses
plus an explicit transition system for the semaphore discipline.
-/

namespace RST

/-- Python exception kinds relevant to the parsers.  `KeyError`, `TypeError`
and `IndexError` are the ones the source catches; `AttributeError` is never
in a catch list of the parsing functions. -/
inductive PyErr
  | keyError
  | typeError
  | indexError
  | attrError
deriving DecidableEq

/-- A JSON-like Python value (dict / list / str / int / bool / None). -/
inductive JVal
  | null
  | str (s : String)
  | int (n : Int)
  | bool (b : Bool)
  | arr (xs : List JVal)
  | obj (fields : List (String × JVal))

/-- Python truthiness of a value, as used by `if not raw_json` and
`if post_id:` in the source. -/
def JVal.truthy : JVal → Bool
  | .null => false
  | .str s => s ≠ ""
  | .int n => n ≠ 0
  | .bool b => b
  | .arr xs => !xs.isEmpty
  | .obj fs => !fs.isEmpty

/-- Python `d.get(k, default)`: only valid on a dict, otherwise
`AttributeError` (which the source parsers never catch). -/
def JVal.getD (j : JVal) (k : String) (d : JVal) : Except PyErr JVal :=
  match j with
  | .obj fields => .ok ((fields.lookup k).getD d)
  | _ => .error .attrError

/-- Python `d.get(k)` returning `None` when absent. -/
def JVal.getOpt (j : JVal) (k : String) : Except PyErr (Option JVal) :=
  match j with
  | .obj fields => .ok (fields.lookup k)
  | _ => .error .attrError

/-- Python subscript with a string key, `j["k"]`. -/
def JVal.pyGetKey (j : JVal) (k : String) : Except PyErr JVal :=
  match j with
  | .obj fields =>
    match fields.lookup k with
    | some v => .ok v
    | none => .error .keyError
  | _ => .error .typeError

/-- Python subscript with an integer index, `j[i]`.  Lists and strings are
indexable; a dict raises `KeyError` for a missing integer key; other values
raise `TypeError`. -/
def JVal.pyGetIdx (j : JVal) (i : Nat) : Except PyErr JVal :=
  match j with
  | .arr xs =>
    match xs.get? i with
    | some v => .ok v
    | none => .error .indexError
  | .str s =>
    match s.data.get? i with
    | some c => .ok (.str (String.singleton c))
    | none => .error .indexError
  | .obj _ => .error .keyError
  | _ => .error .typeError

/-- Python iteration (`for x in j`): lists yield elements, strings yield
one-character strings, dicts yield their keys; other values raise
`TypeError`. -/
def JVal.pyIter : JVal → Except PyErr (List JVal)
  | .arr xs => .ok xs
  | .str s => .ok (s.data.map fun c => .str (String.singleton c))
  | .obj fs => .ok (fs.map fun p => JVal.str p.1)
  | _ => .error .typeError

/-! #### Python string primitives

These model Python's `str` operations over the character list of a
`String`.  (Core `String.trim`/`toUpper`/`≤` are byte-position based and
do not evaluate inside the kernel, so the embedding works on `.data`.) -/

/-- Python's `str.strip()` whitespace set: space, tab, newline, carriage
return, vertical tab, form feed. -/
def pyIsSpace (c : Char) : Bool :=
  c = ' ' || c = '\t' || c = '\n' || c = '\r' || c = '\x0b' || c = '\x0c'

/-- `str.strip()` on a character list. -/
def stripChars (l : List Char) : List Char :=
  ((l.dropWhile pyIsSpace).reverse.dropWhile pyIsSpace).reverse

/-- Python `s.strip()`. -/
def pyStripString (s : String) : String := ⟨stripChars s.data⟩

/-- Python `str.upper()` on one character (ASCII range, which covers every
ticker candidate). -/
def pyUpperChar (c : Char) : Char :=
  if 97 ≤ c.toNat ∧ c.toNat ≤ 122 then Char.ofNat (c.toNat - 32) else c

/-- Python `s.upper()`. -/
def pyUpper (s : String) : String := ⟨s.data.map pyUpperChar⟩

/-- Python `s.startswith('$')`. -/
def pyStartsDollar (s : String) : Bool :=
  match s.data with
  | c :: _ => c = '$'
  | [] => false

/-- Python `s[1:]`. -/
def pyDropOne (s : String) : String := ⟨s.data.drop 1⟩

/-- Python `s.split('\n')` on a character list: always at least one piece,
empty pieces preserved. -/
def splitLinesChars : List Char → List (List Char)
  | [] => [[]]
  | c :: rest =>
    match splitLinesChars rest with
    | [] => [[]]
    | h :: t => if c = '\n' then [] :: h :: t else (c :: h) :: t

/-- Python `s.split('\n')`. -/
def pySplitLines (s : String) : List String :=
  (splitLinesChars s.data).map fun l => ⟨l⟩

/-- Python `len(s)` (number of characters). -/
def pyLen (s : String) : Nat := s.data.length

/-- Lexicographic (code-point) comparison of character lists — the order
Python's `sorted` uses on strings. -/
def lexLeChars : List Char → List Char → Bool
  | [], _ => true
  | _ :: _, [] => false
  | a :: as, b :: bs => if a = b then lexLeChars as bs else decide (a < b)

/-- Python's string order `a <= b`, as a proposition for sorting. -/
def pyStrLe (a b : String) : Prop := lexLeChars a.data b.data = true

instance : DecidableRel pyStrLe := fun a b =>
  inferInstanceAs (Decidable (lexLeChars a.data b.data = true))

/-- Python `v.strip()`: valid only on a string (else `AttributeError`). -/
def pyStrip (j : JVal) : Except PyErr String :=
  match j with
  | .str s => .ok (pyStripString s)
  | _ => .error .attrError

/-- Python string concatenation `text + title` where `title` is a raw JSON
value: raises `TypeError` when the right operand is not a string. -/
def pyConcat (a : String) (b : JVal) : Except PyErr String :=
  match b with
  | .str s => .ok (a ++ s)
  | _ => .error .typeError

/-- `SubmissionType` enum from `utils.py`. -/
inductive SubmissionType
  | POST
  | COMMENT
  | REPLY
deriving DecidableEq

/-- The `SubmissionData` dataclass from `utils.py` — the variant actually
imported by `reddit_stocks.py`.  Note: it has no parent-post field.  Field
values are raw JSON values, as Python's `dict.get` returns them untyped. -/
structure SubmissionData where
  submission_id : JVal
  score : JVal
  created_utc : JVal
  author : JVal
  subreddit : JVal
  type : SubmissionType

/-- Module constant `NUM_COMMENTS_PER_POST = 5` from `utils.py` — the cap
the parser actually uses (not the run's CLI parameter). -/
def NUM_COMMENTS_PER_POST : Nat := 5

/-- Module constant `MAX_RETRIES = 1` from `utils.py`. -/
def MAX_RETRIES : Nat := 1

/-- `extract_submission_data` from `utils.py`:
`text = j.get('selftext','').strip() or j.get('body','').strip()`,
`title = j.get('title','') or ''`, returns `(text + title, SubmissionData)`.
Evaluation order (and hence which exception fires first) mirrors the
source. -/
def extract_submission_data (j : JVal) (ty : SubmissionType) :
    Except PyErr (String × SubmissionData) := do
  let a ← pyStrip (← j.getD "selftext" (.str ""))
  let text ← if a = "" then do pyStrip (← j.getD "body" (.str "")) else pure a
  let t ← j.getD "title" (.str "")
  let title := if t.truthy then t else .str ""
  let post_text_and_title ← pyConcat text title
  let sid ← j.getD "id" (.str "")
  let score ← j.getD "score" (.int 0)
  let created ← j.getD "created_utc" (.int 0)
  let author ← j.getD "author" (.str "Unknown")
  let sub ← j.getD "subreddit" (.str "Unknown")
  return (post_text_and_title,
    { submission_id := sid, score := score, created_utc := created,
      author := author, subreddit := sub, type := ty })

/-- The id-collecting loop of `parse_json_for_post_ids`:
`post_id = child.get("data", {}).get("id"); if post_id: append`. -/
def collectPostIds : List JVal → Except PyErr (List JVal)
  | [] => .ok []
  | c :: rest => do
    let d ← c.getD "data" (.obj [])
    let pid ← d.getOpt "id"
    let restIds ← collectPostIds rest
    match pid with
    | some v => if v.truthy then .ok (v :: restIds) else .ok restIds
    | none => .ok restIds

/-- Body of the `try:` block of `parse_json_for_post_ids`. -/
def parsePostIdsBody (raw : JVal) : Except PyErr (List JVal) := do
  let children ← (← raw.getD "data" (.obj [])).getD "children" (.arr [])
  let cs ← children.pyIter
  collectPostIds cs

/-- `parse_json_for_post_ids` from `utils.py`.  Its `except` clause catches
only `(KeyError, TypeError)`; any other exception (notably
`AttributeError`) propagates past the function. -/
def parse_json_for_post_ids (raw : JVal) : Except PyErr (List JVal) :=
  match parsePostIdsBody raw with
  | .ok ids => .ok ids
  | .error e =>
    if e = .keyError ∨ e = .typeError then .ok [] else .error e

/-- The comment-id loop of `parse_json_for_post_content`: breaks once the
enumeration index reaches `NUM_COMMENTS_PER_POST`, keeps truthy
`comment.get("data", {}).get("id")` values in source order. -/
def collectCommentIds (cap : Nat) : List JVal → Nat → Except PyErr (List JVal)
  | [], _ => .ok []
  | c :: rest, i =>
    if cap ≤ i then .ok []
    else do
      let d ← c.getD "data" (.obj [])
      let cid ← d.getOpt "id"
      let restIds ← collectCommentIds cap rest (i + 1)
      match cid with
      | some v => if v.truthy then .ok (v :: restIds) else .ok restIds
      | none => .ok restIds

/-- Body of the `try:` block of `parse_json_for_post_content`: comment ids
from `raw[1]["data"]["children"]` first, then the submission from
`raw[0]["data"]["children"][0]["data"]`. -/
def parsePostBody (raw : JVal) :
    Except PyErr (Option SubmissionData × String × List JVal) := do
  let cd ← (← (← raw.pyGetIdx 1).pyGetKey "data").pyGetKey "children"
  let comments ← cd.pyIter
  let comment_ids ← collectCommentIds NUM_COMMENTS_PER_POST comments 0
  let post_data ←
    (← (← (← (← raw.pyGetIdx 0).pyGetKey "data").pyGetKey "children").pyGetIdx 0).pyGetKey "data"
  let (text, sd) ← extract_submission_data post_data .POST
  return (some sd, text, comment_ids)

/-- `parse_json_for_post_content` from `utils.py`: catches
`(KeyError, TypeError, IndexError)` and degrades to `(None, "", [])`. -/
def parse_json_for_post_content (raw : JVal) :
    Except PyErr (Option SubmissionData × String × List JVal) :=
  match parsePostBody raw with
  | .ok r => .ok r
  | .error e => if e = .attrError then .error e else .ok (none, "", [])

/-- Body of the `try:` block of `parse_json_for_comment_content`: the
comment from `raw[1]["data"]["children"][0]["data"]`, then all embedded
reply objects from `replies.data.children` (when `replies` is a dict),
then the submission data.  Note there is no cap on the reply list. -/
def parseCommentBody (raw : JVal) :
    Except PyErr (Option SubmissionData × String × List JVal) := do
  let comment_data ←
    (← (← (← (← raw.pyGetIdx 1).pyGetKey "data").pyGetKey "children").pyGetIdx 0).pyGetKey "data"
  let replies_structure ← comment_data.getD "replies" (.obj [])
  let reply_objects ←
    match replies_structure with
    | .obj _ => do
      let rc ← (← replies_structure.getD "data" (.obj [])).getD "children" (.arr [])
      rc.pyIter
    | _ => pure ([] : List JVal)
  let (text, sd) ← extract_submission_data comment_data .COMMENT
  return (some sd, text, reply_objects)

/-- `parse_json_for_comment_content` from `utils.py`: catches
`(KeyError, TypeError, IndexError)` and degrades to `(None, "", [])`.
It receives no parent-post argument. -/
def parse_json_for_comment_content (raw : JVal) :
    Except PyErr (Option SubmissionData × String × List JVal) :=
  match parseCommentBody raw with
  | .ok r => .ok r
  | .error e => if e = .attrError then .error e else .ok (none, "", [])

/-- Body of `parse_json_for_reply_content`: `raw.get("data", raw)` then
`extract_submission_data`. -/
def parseReplyBody (raw : JVal) :
    Except PyErr (Option SubmissionData × String) := do
  let reply_data ←
    match raw with
    | .obj fs => pure ((fs.lookup "data").getD raw)
    | _ => Except.error PyErr.attrError
  let (text, sd) ← extract_submission_data reply_data .REPLY
  return (some sd, text)

/-- `parse_json_for_reply_content` from `utils.py`. -/
def parse_json_for_reply_content (raw : JVal) :
    Except PyErr (Option SubmissionData × String) :=
  match parseReplyBody raw with
  | .ok r => .ok r
  | .error e => if e = .attrError then .error e else .ok (none, "")

/-! ### Fetcher: `make_api_call` with its rate-limit retry -/

/-- Outcome of one HTTP attempt as seen by `make_api_call`: a 429, some
other error (non-2xx status or a raised exception, both of which end in the
`except` branch returning `None`), or a successful JSON body. -/
inductive HttpResponse
  | status429
  | httpError
  | ok (body : JVal)

/-- `make_api_call` from `utils.py`, as a function of the response each
attempt receives (`responses k` is what attempt with `retry_count = k`
gets back).  Returns the final result together with the total seconds
slept in rate-limit cooldowns.  On a 429 with `retry_count ≥ MAX_RETRIES`
it gives up with `None`; otherwise it sleeps 60 s and retries once more
with the counter incremented. -/
def make_api_call (responses : Nat → HttpResponse) (retry_count : Nat) :
    Option JVal × Nat :=
  match responses retry_count with
  | .status429 =>
    if h : MAX_RETRIES ≤ retry_count then (none, 0)
    else
      let r := make_api_call responses (retry_count + 1)
      (r.1, 60 + r.2)
  | .httpError => (none, 0)
  | .ok body => (some body, 0)
termination_by MAX_RETRIES + 1 - retry_count
decreasing_by omega

/-! ### Scheduler task bodies from `reddit_stocks.py`

Each network task is modelled as a pure function of the value the fetch
returned (`none` models `make_api_call` returning `None`).  A call to
`db.insert(tickers, submission_data)` is recorded as an `InsertCall`. -/

/-- One recorded `db.insert(tickers, submission_data)` call. -/
structure InsertCall where
  tickers : List String
  sub : SubmissionData

/-- Truthiness of `raw_post_json` in `if not raw_post_json:`. -/
def optTruthy : Option JVal → Bool
  | none => false
  | some v => v.truthy

/-- `fetch_post_data_and_comment_ids` from `reddit_stocks.py`, as a
function of the validator and the fetched response: on a falsy fetch result
it returns `[]`; otherwise it parses, validates the text when the parsed
submission and text are truthy, inserts when tickers were found, and
returns the comment ids. -/
def fetch_post_data_and_comment_ids (validate : String → List String)
    (fetched : Option JVal) : Except PyErr (List JVal × List InsertCall) :=
  match fetched with
  | none => .ok ([], [])
  | some raw =>
    if raw.truthy then do
      let (sdOpt, text, comment_ids) ← parse_json_for_post_content raw
      let inserts :=
        match sdOpt with
        | some sd =>
          if text ≠ "" ∧ validate text ≠ [] then [⟨validate text, sd⟩] else []
        | none => []
      return (comment_ids, inserts)
    else .ok ([], [])

/-- `fetch_comment_data` from `reddit_stocks.py`, as a function of the
validator and the fetched response; returns the embedded reply objects and
the recorded insert calls. -/
def fetch_comment_data (validate : String → List String)
    (fetched : Option JVal) : Except PyErr (List JVal × List InsertCall) :=
  match fetched with
  | none => .ok ([], [])
  | some raw =>
    if raw.truthy then do
      let (sdOpt, text, reply_objects) ← parse_json_for_comment_content raw
      let inserts :=
        match sdOpt with
        | some sd =>
          if text ≠ "" ∧ validate text ≠ [] then [⟨validate text, sd⟩] else []
        | none => []
      return (reply_objects, inserts)
    else .ok ([], [])

/-- The comment URL built by `fetch_comment_data` — the only place the
parent post id enters the comment task. -/
def comment_url (subreddit post_id comment_id : String)
    (num_replies_per_comment : Nat) : String :=
  "https://www.reddit.com/r/" ++ subreddit ++ "/comments/" ++ post_id ++
    "/comment/" ++ comment_id ++ ".json?sort=top&limit=" ++
    toString (num_replies_per_comment + 2)

/-- The comment task with its fetch resolved against an environment
mapping URLs to responses. -/
def fetch_comment_data_env (env : String → Option JVal)
    (validate : String → List String) (subreddit post_id comment_id : String)
    (num_replies_per_comment : Nat) :
    Except PyErr (List JVal × List InsertCall) :=
  fetch_comment_data validate
    (env (comment_url subreddit post_id comment_id num_replies_per_comment))

/-- Block 2 of `process`: one post task per fetched outcome, gathered in
order (`asyncio.gather` preserves order and isolates nothing — each task is
a function of its own fetch result only). -/
def runPostTier (validate : String → List String)
    (outcomes : List (Option JVal)) :
    List (Except PyErr (List JVal × List InsertCall)) :=
  outcomes.map (fetch_post_data_and_comment_ids validate)

/-! ### Validator: `SECTickerValidator.validate` from `validator.py`

The GLiNER backend is the external Candidate Extractor: it is modelled as
a function from a chunk to the list of entity texts it detects (and, for
the exception-handling claim, as a function that may fail on a chunk). -/

/-- `EXCLUSION_LIST` from `validator.py`. -/
def EXCLUSION_LIST : List String := ["EDIT", "AI", "WELL", "LOT"]

/-- The candidate normalization performed inside `validate`:
`ticker_text = entity['text'].strip()`, then drop a leading `'$'`, then
`.upper()`. -/
def normalizeCand (c : String) : String :=
  let t := pyStripString c
  let t := if pyStartsDollar t then pyDropOne t else t
  pyUpper t

/-- The chunk-building loop of `validate` for texts longer than 1200
characters: greedily packs newline-separated lines into ≤ 1200-character
chunks, stripping each emitted chunk. -/
def buildChunks : List String → String → List String
  | [], cur => if cur = "" then [] else [pyStripString cur]
  | l :: rest, cur =>
    if pyLen cur + pyLen l + 1 ≤ 1200 then
      buildChunks rest (cur ++ l ++ "\n")
    else
      (if cur = "" then [] else [pyStripString cur]) ++
        buildChunks rest (l ++ "\n")

/-- The chunking step of `validate`: texts of at most 1200 characters are
processed whole, longer texts are split on newlines. -/
def chunksOf (text : String) : List String :=
  if pyLen text > 1200 then buildChunks (pySplitLines text) "" else [text]

/-- The per-candidate keep test: registered with the SEC snapshot and not
in the exclusion list. -/
def keepCand (registry : List String) (t : String) : Bool :=
  registry.contains t && !(EXCLUSION_LIST.contains t)

/-- The multiset of normalized candidates that pass validation, given the
raw candidate list the extractor produced. -/
def validCandidates (registry : List String) (cands : List String) :
    List String :=
  (cands.map normalizeCand).filter (keepCand registry)

/-- The set of validated symbols (`tickers_found` in the source is a
Python set). -/
def validatedSet (registry : List String) (cands : List String) :
    Finset String :=
  (validCandidates registry cands).toFinset

/-- `sorted(list(tickers_found))`: the validated symbols as a
duplicate-free ascending list. -/
def validateFromCands (registry : List String) (cands : List String) :
    List String :=
  ((validCandidates registry cands).dedup).insertionSort pyStrLe

/-- `SECTickerValidator.validate` with a total extractor backend: chunk
the text, run the extractor on every chunk, normalize, filter against the
registry and exclusion list, deduplicate, sort ascending. -/
def validate (registry : List String) (ext : String → List String)
    (text : String) : List String :=
  validateFromCands registry ((chunksOf text).flatMap ext)

/-- The chunk loop of `validate` with a fallible extractor backend: the
`try:` block accumulates validated symbols chunk by chunk and the `except`
clause abandons the remaining chunks at the first backend failure, keeping
what was already found. -/
def collectValidated (registry : List String)
    (ext : String → Except Unit (List String)) : List String → List String
  | [] => []
  | c :: rest =>
    match ext c with
    | .error _ => []
    | .ok es => validCandidates registry es ++ collectValidated registry ext rest

/-- `SECTickerValidator.validate` with a fallible extractor backend: the
result is always returned (the exception is caught inside `validate`). -/
def validateE (registry : List String)
    (ext : String → Except Unit (List String)) (text : String) :
    List String :=
  ((collectValidated registry ext (chunksOf text)).dedup).insertionSort pyStrLe

/-! ### The shared-semaphore scheduling model

Both `fetch_post_data_and_comment_ids` and `fetch_comment_data` wrap their
single network fetch in `async with self.semaphore:` — the one semaphore
created in `main` with `asyncio.Semaphore(max_concurrent_requests)` and
shared across the post and comment tiers.  We model every network task
(post-tier and comment-tier alike) as walking through the phases below,
and the event loop as an arbitrary interleaving of task steps in which an
`acquire` is enabled only while fewer than `C` permits are held. -/

/-- Lifecycle phases of one semaphore-guarded network task.  `acquired` is
entry of the `async with` block, `inFlight` is an issued fetch awaiting its
response, `responded` holds the response but has not yet left the `with`
block, `done` covers everything after the permit release (parsing,
validation, persistence). -/
inductive Phase
  | pending
  | acquired
  | inFlight
  | responded
  | done
deriving DecidableEq

/-- A task holds a semaphore permit from `acquire` until `release`. -/
def isHolding : Phase → Bool
  | .acquired => true
  | .inFlight => true
  | .responded => true
  | _ => false

/-- Number of permits currently held. -/
def holdingCount (σ : List Phase) : Nat := σ.countP isHolding

/-- Number of fetch calls currently in flight. -/
def inFlightCount (σ : List Phase) : Nat :=
  σ.countP fun p => p = Phase.inFlight

/-- One scheduler step.  `acquire` is guarded by the semaphore: it fires
only while strictly fewer than `C` permits are held.  A fetch starts only
from `acquired` and its response is received before `release` — exactly
the `async with self.semaphore: ... await make_api_call(...)` shape of the
two fetch methods. -/
inductive SchedStep (C : Nat) : List Phase → List Phase → Prop
  | acquire (σ : List Phase) (i : Nat) (h : σ.get? i = some .pending)
      (hc : holdingCount σ < C) : SchedStep C σ (σ.set i .acquired)
  | startFetch (σ : List Phase) (i : Nat) (h : σ.get? i = some .acquired) :
      SchedStep C σ (σ.set i .inFlight)
  | endFetch (σ : List Phase) (i : Nat) (h : σ.get? i = some .inFlight) :
      SchedStep C σ (σ.set i .responded)
  | release (σ : List Phase) (i : Nat) (h : σ.get? i = some .responded) :
      SchedStep C σ (σ.set i .done)

/-- States reachable by some interleaving of the `n` network tasks of a
run (posts and comments combined), starting with every task pending. -/
inductive SchedReachable (C n : Nat) : List Phase → Prop
  | init : SchedReachable C n (List.replicate n .pending)
  | step {σ σ' : List Phase} : SchedReachable C n σ → SchedStep C σ σ' →
      SchedReachable C n σ'

/-! ### Definitions taken from the spec's words (for refutations)

These two follow the spec text, not the source, and exist only to compare
the spec's stated rule with what the source computes. -/

/-- Modelled from the spec: "strip a leading currency-ticker marker
character if present, uppercase" — with no whitespace stripping. -/
def specNormalize (c : String) : String :=
  pyUpper (if pyStartsDollar c then pyDropOne c else c)

/-- Modelled from the spec: "`text = body_or_selftext.strip()` if
non-empty, else fall back to `title`". -/
def specTextRule (bodyOrSelftext title : String) : String :=
  if pyStripString bodyOrSelftext ≠ "" then pyStripString bodyOrSelftext
  else title

/-! ### Helper lemmas -/

/-- Updating one known element of a phase list shifts a `countP` by the
difference of the predicate at the old and new values. -/
theorem countP_set_known (p : Phase → Bool) (σ : List Phase) (i : Nat)
    (x y : Phase) (h : σ.get? i = some y) :
    (σ.set i x).countP p + (if p y then 1 else 0) =
      σ.countP p + (if p x then 1 else 0) := by
  induction σ generalizing i with
  | nil => simp at h
  | cons a as ih =>
    cases i with
    | zero =>
      simp only [List.get?] at h
      injection h with h
      subst h
      simp [List.countP_cons] <;> omega
    | succ m =>
      simp only [List.get?] at h
      have := ih m h
      simp [List.countP_cons] <;> omega

/-- Initially no permit is held. -/
theorem holdingCount_replicate_pending (n : Nat) :
    holdingCount (List.replicate n Phase.pending) = 0 := by
  induction n with
  | zero => rfl
  | succ m ih =>
    simpa [holdingCount, List.replicate_succ, List.countP_cons, isHolding]
      using ih

/-- Every in-flight fetch holds a permit. -/
theorem inFlight_le_holding (σ : List Phase) :
    inFlightCount σ ≤ holdingCount σ := by
  induction σ with
  | nil => exact Nat.le_refl 0
  | cons a as ih =>
    simp only [inFlightCount, holdingCount, List.countP_cons] at *
    cases a <;> simp [isHolding] <;> omega

/-- The semaphore invariant: no reachable state holds more than `C`
permits. -/
theorem holding_le_of_reachable {C n : Nat} {σ : List Phase}
    (h : SchedReachable C n σ) : holdingCount σ ≤ C := by
  induction h with
  | init =>
    rw [holdingCount_replicate_pending]
    exact Nat.zero_le C
  | step _ hs ih =>
    cases hs with
    | acquire i hg hc =>
      have hcnt := countP_set_known isHolding _ i .acquired .pending hg
      simp [isHolding] at hcnt
      simp only [holdingCount] at *
      omega
    | startFetch i hg =>
      have hcnt := countP_set_known isHolding _ i .inFlight .acquired hg
      simp [isHolding] at hcnt
      simp only [holdingCount] at *
      omega
    | endFetch i hg =>
      have hcnt := countP_set_known isHolding _ i .responded .inFlight hg
      simp [isHolding] at hcnt
      simp only [holdingCount] at *
      omega
    | release i hg =>
      have hcnt := countP_set_known isHolding _ i .done .responded hg
      simp [isHolding] at hcnt
      simp only [holdingCount] at *
      omega

/-- C1: in every state reachable by any interleaving of the semaphore-
guarded post-tier and comment-tier tasks, at most `C` fetch calls are in
flight: every fetch is issued only between `acquire` and `release` of the
single shared permit pool of size `C`, and the permit is released once the
response is received, before parsing. -/
theorem semaphore_bound_respected (C n : Nat) (σ : List Phase)
    (h : SchedReachable C n σ) : inFlightCount σ ≤ C :=
  Nat.le_trans (inFlight_le_holding σ) (holding_le_of_reachable h)

/-- Witness for C1: a concrete reachable state with one in-flight fetch
under the bound `C = 2`. -/
theorem semaphore_bound_respected_witness :
    SchedReachable 2 1 [Phase.inFlight] ∧
      inFlightCount [Phase.inFlight] ≤ 2 := by
  have h0 : SchedReachable 2 1 [Phase.pending] := SchedReachable.init
  have h1 : SchedReachable 2 1 [Phase.acquired] :=
    h0.step (SchedStep.acquire [Phase.pending] 0 rfl (by decide))
  have h2 : SchedReachable 2 1 [Phase.inFlight] :=
    h1.step (SchedStep.startFetch [Phase.acquired] 0 rfl)
  exact ⟨h2, semaphore_bound_respected 2 1 [Phase.inFlight] h2⟩

/-- A well-formed comment-tier response whose comment has id `"c1"`,
body `"AAPL to the moon"` and author `"alice"`. -/
def sampleCommentRaw : JVal :=
  .arr [.null,
    .obj [("data", .obj [("children",
      .arr [.obj [("data", .obj [("id", .str "c1"),
        ("body", .str "AAPL to the moon"), ("author", .str "alice")])]])])]]

/-- C2 (code bug): the comment task uses its parent post id only to build
the fetch URL.  With the response fixed, the task's entire output —
including the `SubmissionData` record handed to `validate` and
`db.insert` — is identical for any two distinct parent post ids, and the
record evaluates to one whose fields are exactly
`(id, score, created_utc, author, subreddit, type)`: the `SubmissionData`
of `utils.py` carries no `parent_id`/`post_id` field at all, contradicting
the claim that the persisted comment submission has `parent_id` equal to
the parent post id (and contradicting the repo's own
`custom_types.SubmissionData` and the call
`parse_json_for_comment_content(comment_data, first_post_id)` in
`test_integration.py`). -/
theorem comment_record_ignores_parent_post :
    (∀ v : String → List String, ∀ p₁ p₂ : String,
      fetch_comment_data_env (fun _ => some sampleCommentRaw) v
          "ValueInvesting" p₁ "c1" 5 =
        fetch_comment_data_env (fun _ => some sampleCommentRaw) v
          "ValueInvesting" p₂ "c1" 5) ∧
    fetch_comment_data (fun _ => ["AAPL"]) (some sampleCommentRaw) =
      .ok ([], [⟨["AAPL"],
        ⟨.str "c1", .int 0, .int 0, .str "alice", .str "Unknown",
          .COMMENT⟩⟩]) := by
  refine ⟨fun v p₁ p₂ => rfl, ?_⟩
  rfl

/-- C8: a rate-limited first attempt sleeps the full 60-second cooldown
and retries exactly once: if the retry succeeds the call returns that
response (and the node outcome equals the outcome of a direct success —
no duplicated work); a second rate-limit exhausts the retry budget of
`MAX_RETRIES = 1` and the call hard-fails with `None`, which the
scheduler's task bodies treat as an empty-result node. -/
theorem rate_limit_retry_budget :
    (∀ responses : Nat → HttpResponse, ∀ b : JVal,
      responses 0 = .status429 → responses 1 = .ok b →
        make_api_call responses 0 = (some b, 60)) ∧
    (∀ responses : Nat → HttpResponse,
      responses 0 = .status429 → responses 1 = .status429 →
        make_api_call responses 0 = (none, 60)) ∧
    (∀ responses : Nat → HttpResponse, ∀ b : JVal,
        ∀ v : String → List String,
      responses 0 = .status429 → responses 1 = .ok b →
        fetch_post_data_and_comment_ids v (make_api_call responses 0).1 =
          fetch_post_data_and_comment_ids v (some b)) ∧
    (∀ v : String → List String,
      fetch_post_data_and_comment_ids v none = .ok ([], []) ∧
        fetch_comment_data v none = .ok ([], [])) := by
  have hsucc : ∀ responses : Nat → HttpResponse, ∀ b : JVal,
      responses 0 = .status429 → responses 1 = .ok b →
        make_api_call responses 0 = (some b, 60) := by
    intro responses b h0 h1
    rw [make_api_call, h0]
    rw [dif_neg (by decide), show (0 : Nat) + 1 = 1 from rfl,
      make_api_call, h1]
    rfl
  have hfail : ∀ responses : Nat → HttpResponse,
      responses 0 = .status429 → responses 1 = .status429 →
        make_api_call responses 0 = (none, 60) := by
    intro responses h0 h1
    rw [make_api_call, h0]
    rw [dif_neg (by decide), show (0 : Nat) + 1 = 1 from rfl,
      make_api_call, h1]
    rw [dif_pos (by decide)]
    rfl
  refine ⟨hsucc, hfail, ?_, fun v => ⟨rfl, rfl⟩⟩
  intro responses b v h0 h1
  rw [hsucc responses b h0 h1]

/-- Witness for C8 at concrete response sequences: rate-limited once then
successful, and rate-limited twice. -/
theorem rate_limit_retry_budget_witness :
    make_api_call
        (fun k => if k = 0 then .status429 else .ok .null) 0 =
      (some .null, 60) ∧
    make_api_call (fun _ => .status429) 0 = (none, 60) :=
  ⟨rate_limit_retry_budget.1 _ .null rfl rfl,
    rate_limit_retry_budget.2.1 _ rfl rfl⟩

/-- Setting one list element leaves every other position unchanged. -/
theorem get?_set_ne {α : Type} (l : List α) (i j : Nat) (a : α)
    (h : i ≠ j) : (l.set i a).get? j = l.get? j := by
  induction l generalizing i j with
  | nil => simp
  | cons x xs ih =>
    cases i with
    | zero =>
      cases j with
      | zero => exact absurd rfl h
      | succ m => simp [List.set]
    | succ n =>
      cases j with
      | zero => simp [List.set]
      | succ m =>
        simp only [List.set, List.get?]
        exact ih n m (fun hh => h (by rw [hh]))

/-- C3: a fetch failure or a parse failure degrades a traversal node to
zero children and zero persisted mentions and nothing more.  A failed
fetch gives the empty-result node; a missing expected field (`KeyError`
or `IndexError` inside the `try:` body) makes the post and comment
parsers return `(None, "", [])`; the scheduler maps that parse failure to
the same empty-result node as a transport failure; and each sibling post
task's outcome is untouched by replacing another task's fetch outcome. -/
theorem node_failures_isolated :
    (∀ v : String → List String,
      fetch_post_data_and_comment_ids v none = .ok ([], []) ∧
        fetch_comment_data v none = .ok ([], [])) ∧
    (∀ raw : JVal, ∀ e : PyErr, parsePostBody raw = .error e →
        e = PyErr.keyError ∨ e = PyErr.indexError →
        parse_json_for_post_content raw = .ok (none, "", [])) ∧
    (∀ raw : JVal, ∀ e : PyErr, parseCommentBody raw = .error e →
        e = PyErr.keyError ∨ e = PyErr.indexError →
        parse_json_for_comment_content raw = .ok (none, "", [])) ∧
    (∀ v : String → List String, ∀ raw : JVal,
      parse_json_for_post_content raw = .ok (none, "", []) →
        fetch_post_data_and_comment_ids v (some raw) = .ok ([], [])) ∧
    (∀ v : String → List String, ∀ raw : JVal,
      parse_json_for_comment_content raw = .ok (none, "", []) →
        fetch_comment_data v (some raw) = .ok ([], [])) ∧
    (∀ v : String → List String, ∀ outs : List (Option JVal),
        ∀ i : Nat, ∀ w : Option JVal, ∀ j : Nat, j ≠ i →
      (runPostTier v (outs.set i w)).get? j = (runPostTier v outs).get? j) := by
  refine ⟨fun v => ⟨rfl, rfl⟩, ?_, ?_, ?_, ?_, ?_⟩
  · intro raw e he hke
    unfold parse_json_for_post_content
    rw [he]
    rcases hke with h | h <;> subst h <;> rfl
  · intro raw e he hke
    unfold parse_json_for_comment_content
    rw [he]
    rcases hke with h | h <;> subst h <;> rfl
  · intro v raw hp
    unfold fetch_post_data_and_comment_ids
    by_cases ht : raw.truthy
    · simp only [ht, if_true, hp]
      rfl
    · simp only [ht]
      rfl
  · intro v raw hp
    unfold fetch_comment_data
    by_cases ht : raw.truthy
    · simp only [ht, if_true, hp]
      rfl
    · simp only [ht]
      rfl
  · intro v outs i w j hne
    simp only [runPostTier, List.get?_map]
    rw [get?_set_ne outs i j w (fun hh => hne hh.symm)]

/-- Witness for C3: the post parser on a response missing its second
element degrades to `(None, "", [])`; the scheduler turns that into the
empty-result node; and a sibling task's entry in the post tier is
unchanged by replacing another task's fetch outcome. -/
theorem node_failures_isolated_witness :
    parse_json_for_post_content (.arr []) = .ok (none, "", []) ∧
    fetch_post_data_and_comment_ids (fun _ => []) (some (.arr [])) =
      .ok ([], []) ∧
    (runPostTier (fun _ => []) ([none, none].set 1 (some .null))).get? 0 =
      (runPostTier (fun _ => []) [none, none]).get? 0 := by
  refine ⟨node_failures_isolated.2.1 (.arr []) .indexError rfl (Or.inr rfl),
    node_failures_isolated.2.2.2.1 (fun _ => []) (.arr []) ?_,
    node_failures_isolated.2.2.2.2.2 (fun _ => []) [none, none] 1
      (some .null) 0 (by decide)⟩
  rfl

/-! ### Order facts about the Python string comparison -/

theorem lexLeChars_total : ∀ a b : List Char,
    lexLeChars a b = true ∨ lexLeChars b a = true := by
  intro a
  induction a with
  | nil => intro b; left; rfl
  | cons x xs ih =>
    intro b
    cases b with
    | nil => right; rfl
    | cons y ys =>
      by_cases hxy : x = y
      · subst hxy
        simpa [lexLeChars] using ih ys
      · rcases lt_or_gt_of_ne hxy with h | h
        · left; simp [lexLeChars, hxy, h]
        · right; simp [lexLeChars, Ne.symm hxy, h]

theorem lexLeChars_trans : ∀ a b c : List Char,
    lexLeChars a b = true → lexLeChars b c = true →
      lexLeChars a c = true := by
  intro a
  induction a with
  | nil => intro b c _ _; rfl
  | cons x xs ih =>
    intro b c hab hbc
    cases b with
    | nil => simp [lexLeChars] at hab
    | cons y ys =>
      cases c with
      | nil => simp [lexLeChars] at hbc
      | cons z zs =>
        simp only [lexLeChars] at hab hbc ⊢
        by_cases hxy : x = y
        · subst hxy
          simp only [if_pos rfl] at hab
          by_cases hxz : x = z
          · subst hxz
            simp only [if_pos rfl] at hbc ⊢
            exact ih ys zs hab hbc
          · simp only [if_neg hxz] at hbc ⊢
            exact hbc
        · simp only [if_neg hxy] at hab
          have hxy' : x < y := of_decide_eq_true hab
          by_cases hyz : y = z
          · subst hyz
            rw [if_neg (ne_of_lt hxy')]
            exact decide_eq_true hxy'
          · simp only [if_neg hyz] at hbc
            have hyz' : y < z := of_decide_eq_true hbc
            have hxz' : x < z := lt_trans hxy' hyz'
            rw [if_neg (ne_of_lt hxz')]
            exact decide_eq_true hxz'

theorem lexLeChars_antisymm : ∀ a b : List Char,
    lexLeChars a b = true → lexLeChars b a = true → a = b := by
  intro a
  induction a with
  | nil =>
    intro b _ hba
    cases b with
    | nil => rfl
    | cons y ys => simp [lexLeChars] at hba
  | cons x xs ih =>
    intro b hab hba
    cases b with
    | nil => simp [lexLeChars] at hab
    | cons y ys =>
      simp only [lexLeChars] at hab hba
      by_cases hxy : x = y
      · subst hxy
        simp only [if_pos rfl] at hab hba
        rw [ih ys hab hba]
      · simp only [if_neg hxy, if_neg (Ne.symm hxy)] at hab hba
        exact absurd (of_decide_eq_true hba)
          (lt_asymm (of_decide_eq_true hab))

instance : IsTotal String pyStrLe :=
  ⟨fun a b => lexLeChars_total a.data b.data⟩

instance : IsTrans String pyStrLe :=
  ⟨fun a b c => lexLeChars_trans a.data b.data c.data⟩

instance : IsAntisymm String pyStrLe :=
  ⟨fun a b hab hba => String.ext (lexLeChars_antisymm a.data b.data hab hba)⟩

/-- C4 counterexample: the claim's normalization (strip a leading `'$'`
if present, uppercase — with no whitespace stripping) is refuted by a
whitespace-padded candidate: `validate` emits `"AAPL"` for the candidate
`" $aapl"` (the source strips whitespace first), yet no candidate equals
`"AAPL"` under the spec's normalization, so the claimed "if and only if"
fails at this input. -/
theorem validate_spec_normalization_refuted :
    "AAPL" ∈ validate ["AAPL"] (fun _ => [" $aapl"]) "x" ∧
      ¬ (∃ c ∈ (chunksOf "x").flatMap (fun _ => [" $aapl"]),
          specNormalize c = "AAPL") := by
  constructor
  · decide
  · decide

/-- C4 (amended): `validate` emits `s` iff some extractor candidate,
after stripping surrounding whitespace, then a leading `'$'` if present,
then uppercasing, equals `s`, and `s` is in the loaded registry snapshot
and not in the fixed exclusion set — in particular exclusion-list symbols
are never emitted even when registered and extracted verbatim. -/
theorem validate_mem_iff (registry : List String)
    (ext : String → List String) (text s : String) :
    s ∈ validate registry ext text ↔
      ((∃ c ∈ (chunksOf text).flatMap ext, normalizeCand c = s) ∧
        s ∈ registry ∧ s ∉ EXCLUSION_LIST) := by
  unfold validate validateFromCands
  rw [(List.perm_insertionSort pyStrLe _).mem_iff, List.mem_dedup]
  unfold validCandidates keepCand
  simp [List.mem_filter, List.mem_map, and_assoc]

/-- C5: the list `validate` returns is strictly ascending in the
Python string order (hence duplicate-free), and it depends on the
extractor's candidate list only through the set of normalized validated
symbols; the candidate list `["AAPL", "aapl", "$AAPL"]` with `"AAPL"`
registered yields exactly `["AAPL"]`. -/
theorem validate_sorted_nodup_set_determined :
    (∀ registry : List String, ∀ ext : String → List String, ∀ text,
      (validate registry ext text).Pairwise fun a b => pyStrLe a b ∧ a ≠ b) ∧
    (∀ registry : List String, ∀ ext : String → List String, ∀ text,
      (validate registry ext text).Nodup) ∧
    (∀ registry c₁ c₂ : List String,
      validatedSet registry c₁ = validatedSet registry c₂ →
        validateFromCands registry c₁ = validateFromCands registry c₂) ∧
    validate ["AAPL"] (fun _ => ["AAPL", "aapl", "$AAPL"]) "t" = ["AAPL"] := by
  have hnodup : ∀ registry cands : List String,
      (validateFromCands registry cands).Nodup := by
    intro registry cands
    exact ((List.perm_insertionSort pyStrLe _).nodup_iff).mpr
      (List.nodup_dedup _)
  have hsorted : ∀ registry cands : List String,
      (validateFromCands registry cands).Sorted pyStrLe := by
    intro registry cands
    exact List.sorted_insertionSort pyStrLe _
  refine ⟨?_, fun registry ext text => hnodup registry _, ?_, by decide⟩
  · intro registry ext text
    exact ((hsorted registry _).and (hnodup registry _))
  · intro registry c₁ c₂ hset
    have htf : ∀ cands : List String,
        (validateFromCands registry cands).toFinset =
          validatedSet registry cands := by
      intro cands
      unfold validateFromCands validatedSet
      apply List.toFinset.ext
      intro x
      rw [(List.perm_insertionSort pyStrLe _).mem_iff, List.mem_dedup]
    have hfin : (validateFromCands registry c₁).toFinset =
        (validateFromCands registry c₂).toFinset := by
      rw [htf c₁, htf c₂]
      exact hset
    exact List.eq_of_perm_of_sorted
      (List.perm_of_nodup_nodup_toFinset_eq (hnodup registry c₁)
        (hnodup registry c₂) hfin)
      (hsorted registry c₁) (hsorted registry c₂)

/-- Witness for C5 at concrete candidate lists with equal validated
sets. -/
theorem validate_sorted_nodup_set_determined_witness :
    validatedSet ["AAPL"] ["AAPL", "aapl"] = validatedSet ["AAPL"] ["$aapl"] ∧
      validateFromCands ["AAPL"] ["AAPL", "aapl"] =
        validateFromCands ["AAPL"] ["$aapl"] :=
  ⟨by decide,
    validate_sorted_nodup_set_determined.2.2.1 ["AAPL"] _ _ (by decide)⟩

/-- The candidates a fallible extractor produced on one chunk
(empty after a failure). -/
def okCands (ext : String → Except Unit (List String)) (c : String) :
    List String :=
  match ext c with
  | .ok es => es
  | .error _ => []

/-- Whether the fallible extractor succeeds on a chunk. -/
def extOkB (ext : String → Except Unit (List String)) (c : String) : Bool :=
  match ext c with
  | .ok _ => true
  | .error _ => false

/-- The chunk loop keeps exactly the validated candidates of the longest
prefix of chunks on which the backend succeeds. -/
theorem collectValidated_eq_takeWhile (registry : List String)
    (ext : String → Except Unit (List String)) : ∀ l : List String,
    collectValidated registry ext l =
      validCandidates registry ((l.takeWhile (extOkB ext)).flatMap (okCands ext)) := by
  intro l
  induction l with
  | nil => rfl
  | cons c rest ih =>
    cases hc : ext c with
    | error e =>
      simp [collectValidated, hc, List.takeWhile_cons, extOkB,
        validCandidates]
    | ok es =>
      have hok : extOkB ext c = true := by simp [extOkB, hc]
      have hcands : okCands ext c = es := by simp [okCands, hc]
      simp only [collectValidated, hc, List.takeWhile_cons, hok, if_true,
        List.flatMap_cons, hcands]
      unfold validCandidates
      rw [List.map_append, List.filter_append, ih]
      rfl

/-- C10: `validate` never propagates a backend exception: with a fallible
extractor it returns the sorted duplicate-free validated symbols of the
chunks processed before the first failure, and returns `[]` when the
backend fails on the very first chunk. -/
theorem validate_partial_on_backend_failure :
    (∀ registry : List String, ∀ ext : String → Except Unit (List String),
        ∀ text : String,
      validateE registry ext text =
        validateFromCands registry
          (((chunksOf text).takeWhile (extOkB ext)).flatMap (okCands ext))) ∧
    (∀ registry : List String, ∀ ext : String → Except Unit (List String),
        ∀ text c cs, chunksOf text = c :: cs → ext c = .error () →
      validateE registry ext text = []) := by
  have h1 : ∀ registry : List String,
      ∀ ext : String → Except Unit (List String), ∀ text : String,
      validateE registry ext text =
        validateFromCands registry
          (((chunksOf text).takeWhile (extOkB ext)).flatMap (okCands ext)) := by
    intro registry ext text
    unfold validateE validateFromCands
    rw [collectValidated_eq_takeWhile]
  refine ⟨h1, ?_⟩
  intro registry ext text c cs hchunks hfail
  rw [h1, hchunks]
  simp [List.takeWhile_cons, extOkB, hfail, validateFromCands,
    validCandidates]

/-- Witness for C10: a backend that fails immediately yields `[]`. -/
theorem validate_partial_on_backend_failure_witness :
    validateE ["AAPL"] (fun _ => .error ()) "x" = [] :=
  validate_partial_on_backend_failure.2 ["AAPL"] (fun _ => .error ()) "x"
    "x" [] rfl rfl

/-! ### Monad-bind evaluation helpers for `Except` -/

theorem bind_ok_eq {ε α β : Type} (a : α) (f : α → Except ε β) :
    (Except.ok a >>= f) = f a := rfl

theorem bind_error_eq {ε α β : Type} (e : ε) (f : α → Except ε β) :
    ((Except.error e : Except ε α) >>= f) = .error e := rfl

/-- A listing response of the expected Reddit shape whose children carry
the given ids. -/
def mkListing (ids : List String) : JVal :=
  .obj [("data",
    .obj [("children",
      .arr (ids.map fun s => .obj [("data", .obj [("id", .str s)])]))])]

/-- The id loop maps well-formed children to their ids, in source order. -/
theorem collectPostIds_map (ids : List String) (hne : ∀ s ∈ ids, s ≠ "") :
    collectPostIds (ids.map fun t => .obj [("data", .obj [("id", .str t)])]) =
      .ok (ids.map JVal.str) := by
  induction ids with
  | nil => rfl
  | cons s rest ih =>
    have hs : s ≠ "" := hne s (List.mem_cons_self s rest)
    have hrest := ih fun x hx => hne x (List.mem_cons_of_mem s hx)
    have hstep : collectPostIds ((s :: rest).map fun t =>
        .obj [("data", .obj [("id", .str t)])]) =
      (collectPostIds (rest.map fun t =>
          .obj [("data", .obj [("id", .str t)])]) >>=
        fun restIds =>
          if (JVal.str s).truthy then .ok (.str s :: restIds)
          else .ok restIds) := rfl
    rw [hstep, hrest]
    simp only [bind_ok_eq]
    simp [JVal.truthy, hs]

/-- C9 counterexample: the claim says a response "missing or malformed in
the expected data/children container" returns `[]` and "never raises an
exception past its boundary", but a malformed container of the wrong type
(`data` bound to a list) makes `children = data.get(...)` raise
`AttributeError`, which the `except (KeyError, TypeError)` clause does not
catch — the exception escapes the parser. -/
theorem listing_parser_never_raises_refuted :
    parse_json_for_post_ids (.obj [("data", .arr [.str "x"])]) =
      .error PyErr.attrError := rfl

/-- C9 (amended): for a listing response containing `k ≤ num_posts`
well-formed entries the parser returns exactly those `k` post ids in
source order, and a response *missing* the expected `data`/`children`
keys returns the empty list without raising; the no-raise guarantee does
not extend to containers of the wrong type, where an `AttributeError`
escapes. -/
theorem listing_parser_missing_container :
    (∀ n : Nat, ∀ ids : List String, (∀ s ∈ ids, s ≠ "") →
      ids.length ≤ n →
        parse_json_for_post_ids (mkListing ids) = .ok (ids.map JVal.str)) ∧
    parse_json_for_post_ids (.obj []) = .ok [] ∧
    parse_json_for_post_ids (.obj [("data", .obj [])]) = .ok [] := by
  refine ⟨?_, rfl, rfl⟩
  intro n ids hne _
  have hbody : parsePostIdsBody (mkListing ids) =
      collectPostIds (ids.map fun t =>
        .obj [("data", .obj [("id", .str t)])]) := rfl
  unfold parse_json_for_post_ids
  rw [hbody, collectPostIds_map ids hne]

/-- Witness for C9 at a concrete two-entry listing. -/
theorem listing_parser_missing_container_witness :
    parse_json_for_post_ids (mkListing ["a", "b"]) =
      .ok [JVal.str "a", JVal.str "b"] :=
  listing_parser_missing_container.1 2 ["a", "b"] (by decide) (by decide)

theorem bind_pure_eq {ε α β : Type} (a : α) (f : α → Except ε β) :
    ((pure a : Except ε α) >>= f) = f a := rfl

/-- A submission object with the given `selftext`, `body` and `title`
string fields. -/
def mkSub (st bd ti : String) : JVal :=
  .obj [("selftext", .str st), ("body", .str bd), ("title", .str ti),
    ("id", .str "s1")]

/-- The continuation of `extract_submission_data` on `mkSub` after the
selftext-or-body choice: append the title (or `''` when falsy) and fill
the metadata record. -/
def extractTail (ty : SubmissionType) (text ti : String) :
    Except PyErr (String × SubmissionData) :=
  (pyConcat text (if (JVal.str ti).truthy then .str ti else .str "")) >>=
    fun ptt =>
      Except.ok (ptt,
        { submission_id := .str "s1", score := .int 0,
          created_utc := .int 0, author := .str "Unknown",
          subreddit := .str "Unknown", type := ty })

/-- On `mkSub`, `extract_submission_data` reduces to the selftext-or-body
choice followed by the common continuation. -/
theorem extract_mkSub_shape (ty : SubmissionType) (st bd ti : String) :
    extract_submission_data (mkSub st bd ti) ty =
      (if pyStripString st = "" then extractTail ty (pyStripString bd) ti
       else extractTail ty (pyStripString st) ti) := rfl

/-- C7 counterexample: with both a non-empty body and a non-empty title,
the text handed to extraction is the stripped body *concatenated with the
title* (`post_text_and_title = text + title` in the source), not the
body alone as the claimed body-else-title fallback states. -/
theorem extraction_text_fallback_refuted :
    Except.map Prod.fst
        (extract_submission_data
          (mkSub "AAPL is undervalued" "" "My title") .POST) =
      .ok "AAPL is undervaluedMy title" ∧
    "AAPL is undervaluedMy title" ≠
      specTextRule "AAPL is undervalued" "My title" := by
  exact ⟨rfl, by decide⟩

/-- On the string shape, the post parser always degrades to
`(None, "", [])` (indexing a string yields a character, whose `["data"]`
subscript raises a caught `TypeError`). -/
theorem parse_post_content_str (s : String) :
    parse_json_for_post_content (.str s) = .ok (none, "", []) := by
  have h1 : (JVal.str s).pyGetIdx 1 =
      (match s.data.get? 1 with
        | some c => Except.ok (JVal.str (String.singleton c))
        | none => Except.error PyErr.indexError) := rfl
  cases hg : s.data.get? 1 with
  | none =>
    have h2 : (JVal.str s).pyGetIdx 1 = .error .indexError := by
      rw [h1, hg]
    unfold parse_json_for_post_content parsePostBody
    rw [h2, bind_error_eq]
    rfl
  | some c =>
    have h2 : (JVal.str s).pyGetIdx 1 = .ok (.str (String.singleton c)) := by
      rw [h1, hg]
    unfold parse_json_for_post_content parsePostBody
    rw [h2]
    simp only [bind_ok_eq]
    rfl

/-- A post whose parse succeeds was fetched as a non-empty JSON array, so
its fetch result was truthy. -/
theorem truthy_of_parse_post_ok (raw : JVal) (sd : SubmissionData)
    (t : String) (cids : List JVal)
    (hp : parse_json_for_post_content raw = .ok (some sd, t, cids)) :
    raw.truthy = true := by
  match raw with
  | .null =>
    rw [show parse_json_for_post_content .null = .ok (none, "", [])
      from rfl] at hp
    simp at hp
  | .int n =>
    rw [show parse_json_for_post_content (.int n) = .ok (none, "", [])
      from rfl] at hp
    simp at hp
  | .bool b =>
    rw [show parse_json_for_post_content (.bool b) = .ok (none, "", [])
      from rfl] at hp
    simp at hp
  | .obj fs =>
    rw [show parse_json_for_post_content (.obj fs) = .ok (none, "", [])
      from rfl] at hp
    simp at hp
  | .str s =>
    rw [parse_post_content_str s] at hp
    simp at hp
  | .arr [] =>
    rw [show parse_json_for_post_content (.arr []) = .ok (none, "", [])
      from rfl] at hp
    simp at hp
  | .arr (a :: as) => rfl

/-- C7 (amended): for every submission at every tier, the text handed to
extraction is the stripped selftext (falling back to the stripped body)
*with the title appended*; when the body side is empty it is exactly the
title; when both are empty the submission still parses successfully with
empty text, and the scheduler then skips validation, so the node
contributes no mentions while its comment ids are still returned. -/
theorem extraction_text_appends_title :
    (∀ ty : SubmissionType, ∀ st bd ti : String,
      Except.map Prod.fst (extract_submission_data (mkSub st bd ti) ty) =
        .ok ((if pyStripString st = "" then pyStripString bd
          else pyStripString st) ++ ti)) ∧
    (∀ ty : SubmissionType,
      extract_submission_data (mkSub "" "" "") ty =
        .ok ("",
          { submission_id := .str "s1", score := .int 0,
            created_utc := .int 0, author := .str "Unknown",
            subreddit := .str "Unknown", type := ty })) ∧
    (∀ v : String → List String, ∀ raw : JVal, ∀ sd : SubmissionData,
        ∀ cids : List JVal,
      parse_json_for_post_content raw = .ok (some sd, "", cids) →
        fetch_post_data_and_comment_ids v (some raw) = .ok (cids, [])) := by
  refine ⟨?_, fun ty => rfl, ?_⟩
  · intro ty st bd ti
    rw [extract_mkSub_shape]
    by_cases h1 : pyStripString st = ""
    · rw [if_pos h1, if_pos h1]
      by_cases hti : ti = ""
      · subst hti
        rfl
      · have htt : (JVal.str ti).truthy = true := by
          simp [JVal.truthy, hti]
        unfold extractTail
        rw [htt]
        rfl
    · rw [if_neg h1, if_neg h1]
      by_cases hti : ti = ""
      · subst hti
        rfl
      · have htt : (JVal.str ti).truthy = true := by
          simp [JVal.truthy, hti]
        unfold extractTail
        rw [htt]
        rfl
  · intro v raw sd cids hp
    have ht := truthy_of_parse_post_ok raw sd "" cids hp
    simp only [fetch_post_data_and_comment_ids]
    rw [ht, hp]
    rfl

/-- Witness for C7: a post with no selftext, body or title parses
successfully with empty text; the task returns its comment id and inserts
nothing even though the validator would report tickers. -/
theorem extraction_text_appends_title_witness :
    fetch_post_data_and_comment_ids (fun _ => ["AAPL"])
        (some (.arr [
          .obj [("data", .obj [("children",
            .arr [.obj [("data", .obj [("id", .str "p1")])]])])],
          .obj [("data", .obj [("children",
            .arr [.obj [("data", .obj [("id", .str "c1")])]])])]])) =
      .ok ([.str "c1"], []) :=
  extraction_text_appends_title.2.2 (fun _ => ["AAPL"]) _ _ [.str "c1"] rfl

/-! ### Tier-width behaviour of the parsers (C6) -/

/-- A listing/comment child entry carrying an id. -/
def idChild (s : String) : JVal := .obj [("data", .obj [("id", .str s)])]

/-- A post-tier response: element 0 holds the submission, element 1 the
comment children. -/
def mkPostRaw (postFields : List (String × JVal))
    (commentChildren : List JVal) : JVal :=
  .arr [
    .obj [("data", .obj [("children",
      .arr [.obj [("data", .obj postFields)]])])],
    .obj [("data", .obj [("children", .arr commentChildren)])]]

/-- A comment-tier response whose comment (id `"c1"`, body `"b"`) embeds
the given reply objects. -/
def mkCommentRaw (replies : List JVal) : JVal :=
  let repliesStructure : JVal :=
    .obj [("data", .obj [("children", .arr replies)])]
  let commentData : JVal :=
    .obj [("id", .str "c1"), ("body", .str "b"),
      ("replies", repliesStructure)]
  .arr [.null,
    .obj [("data",
      .obj [("children", .arr [.obj [("data", commentData)]])])]]

/-- The id the comment-id loop would keep for one child, if any. -/
def childIdOf (c : JVal) : Option JVal :=
  match c.getD "data" (.obj []) with
  | .ok d =>
    match d.getOpt "id" with
    | .ok (some v) => if v.truthy then some v else none
    | _ => none
  | .error _ => none

/-- All ids the comment-id loop would keep with no cap, in source
order. -/
def childIdsTot : List JVal → List JVal
  | [] => []
  | c :: rest =>
    match childIdOf c with
    | some v => v :: childIdsTot rest
    | none => childIdsTot rest

/-- `collectCommentIds` either raises, or returns at most `cap - i` ids
forming a sublist (hence in source order) of the uncapped id
collection. -/
theorem collectCommentIds_spec : ∀ l : List JVal, ∀ cap i : Nat,
    (∃ e, collectCommentIds cap l i = .error e) ∨
    (∃ ids, collectCommentIds cap l i = .ok ids ∧
      ids.length ≤ cap - i ∧ ids.Sublist (childIdsTot l)) := by
  intro l
  induction l with
  | nil =>
    intro cap i
    exact Or.inr ⟨[], rfl, by simp, List.nil_sublist _⟩
  | cons c rest ih =>
    intro cap i
    by_cases hcap : cap ≤ i
    · refine Or.inr ⟨[], ?_, by simp, List.nil_sublist _⟩
      unfold collectCommentIds
      rw [if_pos hcap]
    · cases hd : c.getD "data" (.obj []) with
      | error e =>
        refine Or.inl ⟨e, ?_⟩
        unfold collectCommentIds
        rw [if_neg hcap, hd, bind_error_eq]
      | ok d =>
        have hco : childIdOf c =
            (match d.getOpt "id" with
              | .ok (some v) => if v.truthy then some v else none
              | _ => none) := by
          unfold childIdOf
          rw [hd]
        cases hcid : d.getOpt "id" with
        | error e =>
          refine Or.inl ⟨e, ?_⟩
          unfold collectCommentIds
          rw [if_neg hcap, hd]
          simp only [bind_ok_eq]
          rw [hcid, bind_error_eq]
        | ok cid =>
          rcases ih cap (i + 1) with ⟨e, he⟩ | ⟨restIds, hre, hlen, hsub⟩
          · refine Or.inl ⟨e, ?_⟩
            unfold collectCommentIds
            rw [if_neg hcap, hd]
            simp only [bind_ok_eq]
            rw [hcid]
            simp only [bind_ok_eq]
            rw [he, bind_error_eq]
          · have hmid : collectCommentIds cap (c :: rest) i =
                (d.getOpt "id" >>= fun cid2 =>
                  collectCommentIds cap rest (i + 1) >>= fun restIds2 =>
                    match cid2 with
                    | some v => if v.truthy then Except.ok (v :: restIds2)
                      else Except.ok restIds2
                    | none => Except.ok restIds2) := by
              conv_lhs => rw [collectCommentIds]
              rw [if_neg hcap, hd]
              simp only [bind_ok_eq]
            cases cid with
            | none =>
              have hco2 : childIdOf c = none := by
                rw [hco, hcid]
              have hcstep : collectCommentIds cap (c :: rest) i =
                  .ok restIds := by
                rw [hmid, hcid]
                simp only [bind_ok_eq]
                rw [hre]
                simp only [bind_ok_eq]
              have htau : childIdsTot (c :: rest) = childIdsTot rest := by
                conv_lhs => rw [childIdsTot]
                rw [hco2]
              refine Or.inr ⟨restIds, hcstep, by omega, ?_⟩
              rw [htau]
              exact hsub
            | some v =>
              have hco2 : childIdOf c =
                  (if v.truthy then some v else none) := by
                rw [hco, hcid]
              have hcstep : collectCommentIds cap (c :: rest) i =
                  (if v.truthy then Except.ok (v :: restIds)
                    else Except.ok restIds) := by
                rw [hmid, hcid]
                simp only [bind_ok_eq]
                rw [hre]
                simp only [bind_ok_eq]
              by_cases hv : v.truthy = true
              · have hco3 : childIdOf c = some v := by
                  rw [hco2, if_pos hv]
                have htau : childIdsTot (c :: rest) =
                    v :: childIdsTot rest := by
                  conv_lhs => rw [childIdsTot]
                  rw [hco3]
                refine Or.inr ⟨v :: restIds, ?_, ?_, ?_⟩
                · rw [hcstep, if_pos hv]
                · simp only [List.length_cons]
                  omega
                · rw [htau]
                  exact List.Sublist.cons₂ v hsub
              · have hco3 : childIdOf c = none := by
                  rw [hco2, if_neg hv]
                have htau : childIdsTot (c :: rest) = childIdsTot rest := by
                  conv_lhs => rw [childIdsTot]
                  rw [hco3]
                refine Or.inr ⟨restIds, ?_, by omega, ?_⟩
                · rw [hcstep, if_neg hv]
                · rw [htau]
                  exact hsub

/-- The post-data navigation and extraction after the comment-id loop
leaves the comment-id component untouched. -/
theorem nav_tail_third (j : JVal) (cids : List JVal)
    (pr : Option SubmissionData × String × List JVal)
    (h : (j.pyGetIdx 0 >>= fun a => a.pyGetKey "data" >>= fun b =>
        b.pyGetKey "children" >>= fun cc => cc.pyGetIdx 0 >>= fun dd =>
        dd.pyGetKey "data" >>= fun pd =>
        extract_submission_data pd .POST >>= fun p =>
        Except.ok (some p.2, p.1, cids)) = .ok pr) :
    pr.2.2 = cids := by
  cases h0 : j.pyGetIdx 0 with
  | error e =>
    rw [h0, bind_error_eq] at h
    exact absurd h (by simp)
  | ok a =>
    rw [h0] at h
    simp only [bind_ok_eq] at h
    cases h1 : a.pyGetKey "data" with
    | error e =>
      rw [h1, bind_error_eq] at h
      exact absurd h (by simp)
    | ok b =>
      rw [h1] at h
      simp only [bind_ok_eq] at h
      cases h2 : b.pyGetKey "children" with
      | error e =>
        rw [h2, bind_error_eq] at h
        exact absurd h (by simp)
      | ok cc =>
        rw [h2] at h
        simp only [bind_ok_eq] at h
        cases h3 : cc.pyGetIdx 0 with
        | error e =>
          rw [h3, bind_error_eq] at h
          exact absurd h (by simp)
        | ok dd =>
          rw [h3] at h
          simp only [bind_ok_eq] at h
          cases h4 : dd.pyGetKey "data" with
          | error e =>
            rw [h4, bind_error_eq] at h
            exact absurd h (by simp)
          | ok pd =>
            rw [h4] at h
            simp only [bind_ok_eq] at h
            cases h5 : extract_submission_data pd .POST with
            | error e =>
              rw [h5, bind_error_eq] at h
              exact absurd h (by simp)
            | ok p =>
              rw [h5] at h
              simp only [bind_ok_eq] at h
              simp only [Except.ok.injEq] at h
              rw [← h]

/-- A successful post parse carries at most `NUM_COMMENTS_PER_POST`
comment ids. -/
theorem parse_post_content_length (raw : JVal)
    (r : Option SubmissionData × String × List JVal)
    (h : parse_json_for_post_content raw = .ok r) :
    r.2.2.length ≤ NUM_COMMENTS_PER_POST := by
  cases hb : parsePostBody raw with
  | error e =>
    have hp2 : parse_json_for_post_content raw =
        (if e = PyErr.attrError then .error e else .ok (none, "", [])) := by
      unfold parse_json_for_post_content
      rw [hb]
    rw [hp2] at h
    by_cases ha : e = PyErr.attrError
    · rw [if_pos ha] at h
      exact absurd h (by simp)
    · rw [if_neg ha] at h
      simp only [Except.ok.injEq] at h
      subst h
      simp
  | ok pr =>
    have hp2 : parse_json_for_post_content raw = .ok pr := by
      unfold parse_json_for_post_content
      rw [hb]
    rw [hp2] at h
    simp only [Except.ok.injEq] at h
    subst h
    unfold parsePostBody at hb
    cases g1 : raw.pyGetIdx 1 with
    | error e =>
      rw [g1, bind_error_eq] at hb
      exact absurd hb (by simp)
    | ok x1 =>
      rw [g1] at hb
      simp only [bind_ok_eq] at hb
      cases g2 : x1.pyGetKey "data" with
      | error e =>
        rw [g2, bind_error_eq] at hb
        exact absurd hb (by simp)
      | ok x2 =>
        rw [g2] at hb
        simp only [bind_ok_eq] at hb
        cases g3 : x2.pyGetKey "children" with
        | error e =>
          rw [g3, bind_error_eq] at hb
          exact absurd hb (by simp)
        | ok cd =>
          rw [g3] at hb
          simp only [bind_ok_eq] at hb
          cases g4 : cd.pyIter with
          | error e =>
            rw [g4, bind_error_eq] at hb
            exact absurd hb (by simp)
          | ok comments =>
            rw [g4] at hb
            simp only [bind_ok_eq] at hb
            cases g5 : collectCommentIds NUM_COMMENTS_PER_POST comments 0 with
            | error e =>
              rw [g5, bind_error_eq] at hb
              exact absurd hb (by simp)
            | ok cids =>
              rw [g5] at hb
              simp only [bind_ok_eq] at hb
              rw [nav_tail_third raw cids pr hb]
              rcases collectCommentIds_spec comments
                  NUM_COMMENTS_PER_POST 0 with ⟨e, he⟩ | ⟨ids, hid, hlen, _⟩
              · rw [he] at g5
                exact absurd g5 (by simp)
              · rw [hid] at g5
                simp only [Except.ok.injEq] at g5
                rw [← g5]
                omega

/-- C6 counterexample: the parsers do not honour the run's overridable
tier widths.  With `num_comments_per_post` overridden to `3`, a response
with four comment children still yields four ids (the parser caps at the
fixed module constant `NUM_COMMENTS_PER_POST = 5`, imported nowhere from
the run parameters); and at the *default* `num_replies_per_comment = 5`,
a comment response embedding six replies yields all six reply objects
(the comment parser has no cap at all). -/
theorem parser_tier_width_refuted :
    Except.map (fun r => r.2.2.length)
        (parse_json_for_post_content
          (mkPostRaw [("id", .str "p1"), ("title", .str "T")]
            [idChild "c1", idChild "c2", idChild "c3", idChild "c4"])) =
      .ok 4 ∧
    ¬ (4 ≤ 3) ∧
    Except.map (fun r => r.2.2.length)
        (parse_json_for_comment_content
          (mkCommentRaw (List.replicate 6 .null))) = .ok 6 ∧
    ¬ (6 ≤ 5) := by
  exact ⟨rfl, by decide, rfl, by decide⟩

/-- C6 (amended): the caps the parsers actually enforce are fixed in the
parsing module, not taken from the run parameters: a successful post
parse returns at most `NUM_COMMENTS_PER_POST = 5` comment ids, and those
ids form a sublist (source order) of the uncapped child-id collection;
the comment parser returns *all* embedded reply objects with no cap. -/
theorem parser_fixed_caps :
    (∀ raw : JVal, ∀ r : Option SubmissionData × String × List JVal,
      parse_json_for_post_content raw = .ok r →
        r.2.2.length ≤ NUM_COMMENTS_PER_POST) ∧
    (∀ cap i : Nat, ∀ l ids : List JVal,
      collectCommentIds cap l i = .ok ids → ids.Sublist (childIdsTot l)) ∧
    (∀ xs : List JVal,
      Except.map (fun r => r.2.2)
        (parse_json_for_comment_content (mkCommentRaw xs)) = .ok xs) := by
  refine ⟨parse_post_content_length, ?_, fun xs => rfl⟩
  intro cap i l ids h
  rcases collectCommentIds_spec l cap i with ⟨e, he⟩ | ⟨ids2, hid, _, hsub⟩
  · rw [he] at h
    exact absurd h (by simp)
  · rw [hid] at h
    simp only [Except.ok.injEq] at h
    rw [← h]
    exact hsub

/-- Witness for C6: a post response with six comment children parses to
exactly the first five ids, and a capped collection starting at offset 4
is a sublist of the uncapped ids. -/
theorem parser_fixed_caps_witness :
    ([JVal.str "c1", .str "c2", .str "c3", .str "c4", .str "c5"].length ≤
      NUM_COMMENTS_PER_POST) ∧
    [JVal.str "c1"].Sublist (childIdsTot [idChild "c1", idChild "c2"]) :=
  ⟨parser_fixed_caps.1
      (mkPostRaw [("id", .str "p1"), ("title", .str "T")]
        [idChild "c1", idChild "c2", idChild "c3", idChild "c4",
          idChild "c5", idChild "c6"])
      (some ⟨.str "p1", .int 0, .int 0, .str "Unknown", .str "Unknown",
        .POST⟩, "T",
        [.str "c1", .str "c2", .str "c3", .str "c4", .str "c5"]) rfl,
    parser_fixed_caps.2.1 5 4 [idChild "c1", idChild "c2"]
      [JVal.str "c1"] rfl⟩

end RST
